import Mathlib

/-!
# CrowdSense dashboard — formal model and verification

A shallow embedding of the CrowdSense people-counter dashboard
(`src/components/TimeSeriesClient.tsx`, both the gated/capped and the
ungated/uncapped variant, plus the server page `TimeSeriesPage`).

Timestamps are modelled as epoch milliseconds (`Nat`); a JS `Date` holds
such an instant and all readings of this dashboard are post-1970, so the
non-negative range suffices.  Time-zone-dependent formatting is modelled
in UTC.  The layout is: all definitions first, then all theorems.
-/

namespace CrowdSense

/-! ## Data model -/

/-- One row of the `people_counter` table (`TimeSeriesData` in `@/app/page`):
`{ id: string, created_at: ISO timestamp, people_count: number }`.
`created_at` is modelled as the creation instant in epoch milliseconds;
over the wire it travels as an ISO-8601 string which the client parses
back into that same instant. -/
structure TimeSeriesData where
  id : String
  created_at : Nat
  people_count : Int
  deriving Repr, DecidableEq

/-! ## Proleptic Gregorian calendar (ECMA-262 `Date` semantics)

`Date.prototype.toISOString` prints the UTC calendar fields of the
instant, and ISO-8601 parsing (ECMA-262 `MakeDay`/`MakeTime`, used by
`Date.parse` and by luxon's `DateTime.fromISO`) maps the fields back to
the instant.  The field computation follows ECMA-262: `YearFromTime` is
the year whose first day is the last one not after the given day
(a scan from 1970 here, with enough fuel to cover the range),
`MonthFromTime`/`DateFromTime` locate the day inside the year's month
table, and `MakeDay` sums whole years and months before the date. -/

/-- Gregorian leap-year rule (ECMA-262 `InLeapYear`). -/
def isLeap (y : Nat) : Bool := y % 4 = 0 && (y % 100 ≠ 0 || y % 400 = 0)

/-- `DaysInYear` of ECMA-262. -/
def daysInYear (y : Nat) : Nat := if isLeap y then 366 else 365

/-- Year scan: starting at year `y` with `rem` days left, step over whole
years while they fit; returns the final year and the day-of-year.  Fuel
bounds the number of whole years stepped over. -/
def findYearAux : Nat → Nat → Nat → Nat × Nat
  | 0, y, rem => (y, rem)
  | fuel + 1, y, rem =>
    if daysInYear y ≤ rem then findYearAux fuel (y + 1) (rem - daysInYear y)
    else (y, rem)

/-- `YearFromTime`/day-within-year: `rem / 365 + 1` whole years always
suffice as fuel. -/
def findYear (y rem : Nat) : Nat × Nat := findYearAux (rem / 365 + 1) y rem

/-- Total days in the `n` consecutive years starting at year `y`. -/
def yearSpan : Nat → Nat → Nat
  | _, 0 => 0
  | y, n + 1 => daysInYear y + yearSpan (y + 1) n

/-- Days in month `m` (1-based) of year `y` (the ECMA-262 month table). -/
def monthLength (y m : Nat) : Nat :=
  match m with
  | 2 => if isLeap y then 29 else 28
  | 4 | 6 | 9 | 11 => 30
  | _ => 31

/-- Month scan inside one year: from month `m` with `rem` days of the
year left (0-based), step over whole months; returns the month and the
1-based day of month. -/
def findMonthAux : Nat → Nat → Nat → Nat → Nat × Nat
  | 0, _, m, rem => (m, rem + 1)
  | fuel + 1, y, m, rem =>
    if monthLength y m ≤ rem then findMonthAux fuel y (m + 1) (rem - monthLength y m)
    else (m, rem + 1)

/-- `MonthFromTime` and `DateFromTime`: locate the 0-based day-of-year
`doy` of year `y` in the month table (11 steps of fuel cover the 12
months). -/
def monthAndDay (y doy : Nat) : Nat × Nat := findMonthAux 11 y 1 doy

/-- Total days in the `n` consecutive months starting at month `m` of
year `y`. -/
def monthSpan : Nat → Nat → Nat → Nat
  | _, _, 0 => 0
  | y, m, n + 1 => monthLength y m + monthSpan y (m + 1) n

/-- Days of year `y` strictly before month `m` (1-based). -/
def daysBeforeMonth (y m : Nat) : Nat := monthSpan y 1 (m - 1)

/-- UTC calendar date `(year, month, day)` of day number `z` (days since
1970-01-01). -/
def civilFromDays (z : Nat) : Nat × Nat × Nat :=
  let yd := findYear 1970 z
  let md := monthAndDay yd.1 yd.2
  (yd.1, md.1, md.2)

/-- ECMA-262 `MakeDay`: day number of the calendar date `(y, m, d)` —
whole years since 1970, plus whole months of `y` before `m`, plus the
elapsed days of the month. -/
def daysFromCivil (y m d : Nat) : Nat :=
  yearSpan 1970 (y - 1970) + daysBeforeMonth y m + (d - 1)

/-! ## Decimal digit rendering and ISO-8601 strings -/

/-- Decimal digit character: `0 ↦ '0', …, 9 ↦ '9'`. -/
def digitChar (n : Nat) : Char := Char.ofNat (48 + n % 10)

/-- Numeric value of a decimal digit character. -/
def digitVal (c : Char) : Nat := c.toNat - 48

/-- Whether `c` is one of `'0'..'9'`. -/
def isDigitChar (c : Char) : Bool := 48 ≤ c.toNat && c.toNat ≤ 57

/-- Zero-padded big-endian decimal rendering of `n`, exactly `k`
characters (the `k` low decimal digits of `n`). -/
def padNum : Nat → Nat → List Char
  | 0, _ => []
  | k + 1, n => padNum k (n / 10) ++ [digitChar n]

/-- `Date.prototype.toISOString` for instants between 1970 and the year
9999: the 24-character UTC form `YYYY-MM-DDTHH:mm:ss.sssZ` (ISO-8601
with milliseconds and zone designator). -/
def toISOString (ms : Nat) : String :=
  let msOfDay := ms % 86400000
  let ymd := civilFromDays (ms / 86400000)
  String.mk (padNum 4 ymd.1 ++ ['-'] ++ padNum 2 ymd.2.1 ++ ['-'] ++ padNum 2 ymd.2.2 ++
    ['T'] ++ padNum 2 (msOfDay / 3600000) ++ [':'] ++ padNum 2 (msOfDay % 3600000 / 60000) ++
    [':'] ++ padNum 2 (msOfDay % 60000 / 1000) ++ ['.'] ++ padNum 3 (msOfDay % 1000) ++ ['Z'])

/-- ISO-8601 parsing of the 24-character UTC form (ECMA-262 date-time
string format with `Z` offset): validate the shape, the digits and the
field ranges, then rebuild the instant with `MakeDay`/`MakeTime`. -/
def parseISO (s : String) : Option Nat :=
  match s.toList with
  | [y1, y2, y3, y4, '-', b1, b2, '-', c1, c2, 'T', h1, h2, ':', n1, n2, ':', s1, s2, '.',
      f1, f2, f3, 'Z'] =>
    if isDigitChar y1 && isDigitChar y2 && isDigitChar y3 && isDigitChar y4 &&
        isDigitChar b1 && isDigitChar b2 && isDigitChar c1 && isDigitChar c2 &&
        isDigitChar h1 && isDigitChar h2 && isDigitChar n1 && isDigitChar n2 &&
        isDigitChar s1 && isDigitChar s2 && isDigitChar f1 && isDigitChar f2 &&
        isDigitChar f3 then
      let y := 1000 * digitVal y1 + 100 * digitVal y2 + 10 * digitVal y3 + digitVal y4
      let mo := 10 * digitVal b1 + digitVal b2
      let d := 10 * digitVal c1 + digitVal c2
      let hh := 10 * digitVal h1 + digitVal h2
      let mi := 10 * digitVal n1 + digitVal n2
      let ss := 10 * digitVal s1 + digitVal s2
      let fr := 100 * digitVal f1 + 10 * digitVal f2 + digitVal f3
      if 1 ≤ mo ∧ mo ≤ 12 ∧ 1 ≤ d ∧ d ≤ 31 ∧ hh ≤ 23 ∧ mi ≤ 59 ∧ ss ≤ 59 then
        some (daysFromCivil y mo d * 86400000 +
          hh * 3600000 + mi * 60000 + ss * 1000 + fr)
      else none
    else none
  | _ => none

/-! ## View Model Builder -/

/-- The luxon `dt.toFormat ("HH:mm:ss")` call of `chartData`, modelled in
UTC: clock-of-day of the instant `ms`, rendered `HH:mm:ss`. -/
def formatHHMMSS (ms : Nat) : String :=
  let msOfDay := ms % 86400000
  String.mk (padNum 2 (msOfDay / 3600000) ++ [':'] ++
    padNum 2 (msOfDay % 3600000 / 60000) ++ [':'] ++
    padNum 2 (msOfDay % 60000 / 1000))

/-- The derived display shape (`ChartData` interface in the source):
`{ id, time: "HH:mm:ss" string, value: number, timestamp: Date }`.
`timestamp` is the `Date` instant in epoch milliseconds. -/
structure ChartData where
  id : String
  time : String
  value : Int
  timestamp : Nat
  deriving Repr, DecidableEq

/-- One step of the `chartData` `useMemo` map: parse `created_at`, format
the clock time, keep the count and the parsed instant. -/
def toChartData (d : TimeSeriesData) : ChartData :=
  { id := d.id
    time := formatHHMMSS d.created_at
    value := d.people_count
    timestamp := d.created_at }

/-- `chartData = dataState.map (…)`: the chart-ordered display sequence,
one `ChartData` per reading, preserving input order. -/
def chartData (dataState : List TimeSeriesData) : List ChartData :=
  dataState.map toChartData

/-- Insertion step of the stable descending-by-timestamp sort.  The
element being inserted comes earlier in the input than everything in the
already sorted list, so on a timestamp tie it stays in front — exactly
the stability guarantee of JS `Array.prototype.sort` with the comparator
`(a, b) => b.timestamp.getTime() - a.timestamp.getTime()`. -/
def insertDesc (x : ChartData) : List ChartData → List ChartData
  | [] => [x]
  | y :: ys =>
    if y.timestamp ≤ x.timestamp then x :: y :: ys else y :: insertDesc x ys

/-- `tableData = [...chartData].sort ((a, b) => b.timestamp.getTime () -
a.timestamp.getTime ())`: a stable sort of the chart sequence, newest
first.  JS sort is specified stable and the comparator is consistent, so
the result is uniquely determined; it is embedded as a stable insertion
sort. -/
def tableData : List ChartData → List ChartData
  | [] => []
  | x :: xs => insertDesc x (tableData xs)

/-- `isThresholdExceeded = chartData.some ((point) => point.value >
threshold)`. -/
def isThresholdExceeded (points : List ChartData) (threshold : Int) : Bool :=
  points.any (fun point => point.value > threshold)

/-- Result type of the `latestValue` memo: the latest count, or the
`"N/A"` no-data marker. -/
inductive LatestValue where
  | val (n : Int)
  | noData
  deriving Repr, DecidableEq

/-- `latestValue = chartData.at (-1)?.value ?? "N/A"`: the value of the
last element of the chart-ordered sequence, or the no-data marker. -/
def latestValue (points : List ChartData) : LatestValue :=
  match points.getLast? with
  | some p => .val p.value
  | none => .noData

/-! ## CSV export -/

/-- JS `Array.prototype.join (sep)`. -/
def joinWith (sep : String) : List String → String
  | [] => ""
  | [x] => x
  | x :: y :: ys => x ++ sep ++ joinWith sep (y :: ys)

/-- `exportDataToCsv`: header row plus one row per chart point with the
count and the `toISOString` timestamp, every cell wrapped in double
quotes, cells joined by `","` and rows by `"\n"`.  (The file download
side effects — `Blob`, object URL, anchor click — have no data content
and are not modelled.) -/
def exportDataToCsv (chartData : List ChartData) : String :=
  let header := ["People Count", "Timestamp (ISO)"]
  let rows := chartData.map (fun row => [toString row.value, toISOString row.timestamp])
  joinWith "\n" ((header :: rows).map
    (fun r => joinWith "," (r.map (fun cell => "\"" ++ cell ++ "\""))))

/-- A double-quoted CSV field. -/
def quoteCell (cell : String) : String := "\"" ++ cell ++ "\""

/-- Modelled from the spec's CSV contract: the header row
`["People Count", "Timestamp (ISO)"]`, each field double-quoted. -/
def csvHeaderRow : String := "\"People Count\",\"Timestamp (ISO)\""

/-- Modelled from the spec's CSV contract: one data row per point — the
value and the ISO-8601 timestamp, each field double-quoted. -/
def csvDataRow (p : ChartData) : String :=
  quoteCell (toString p.value) ++ "," ++ quoteCell (toISOString p.timestamp)

/-- Modelled from the spec's CSV contract: the row sequence of the
document — the header first, then one row per point in input order. -/
def csvRows (points : List ChartData) : List String :=
  csvHeaderRow :: points.map csvDataRow

/-! ## Data Fetcher query (Supabase / PostgREST semantics)

The query is
`.from ("people_counter").select ("id, created_at, people_count")
.order ("created_at", ascending: true)` followed by `.limit (100)` in the
capped variant.  PostgREST applies `order` first and `limit` afterwards
(SQL `ORDER BY … LIMIT …`): the result is the first `n` rows of the
ascending-ordered table. -/

/-- Stable ascending insertion by `created_at` (database `ORDER BY
created_at ASC`; ties in arbitrary but consistent order, modelled as
input order). -/
def insertAsc (x : TimeSeriesData) : List TimeSeriesData → List TimeSeriesData
  | [] => [x]
  | y :: ys =>
    if x.created_at ≤ y.created_at then x :: y :: ys else y :: insertAsc x ys

/-- The table ordered by `created_at` ascending. -/
def orderByCreatedAtAsc : List TimeSeriesData → List TimeSeriesData
  | [] => []
  | x :: xs => insertAsc x (orderByCreatedAtAsc xs)

/-- The capped fetch query (gated variant `fetchData` and the server
page): `order ("created_at", ascending: true)` with `limit (100)` — the
first 100 rows of the ascending order. -/
def fetchQueryCapped (table : List TimeSeriesData) : List TimeSeriesData :=
  (orderByCreatedAtAsc table).take 100

/-- The uncapped fetch query (ungated variant `fetchData`): all rows in
ascending order. -/
def fetchQueryAll (table : List TimeSeriesData) : List TimeSeriesData :=
  orderByCreatedAtAsc table

/-- A demonstration table of 101 readings, one per second from the
epoch, ids `"r0" … "r100"`, all counts zero. -/
def demoTable : List TimeSeriesData :=
  (List.range 101).map (fun i => { id := "r" ++ toString i, created_at := i * 1000, people_count := 0 })

/-! ## Polling Controller (`useEffect` + `setInterval` lifecycle)

Events delivered to the component by the UI runtime: the effect start
(mount in the ungated variant, `realtimeEnabled` becoming true in the
gated one), a 5-second timer boundary, and the effect cleanup (disable
or unmount).  `fetchCount` counts actual invocations of the async
closure returned by `fetchData` — i.e. actual network fetches. -/

inductive PollEvent where
  | start
  | tick
  | stop
  deriving Repr, DecidableEq

/-- Timer/fetch state of one effect instance. -/
structure PollState where
  intervalActive : Bool
  fetchCount : Nat
  deriving Repr, DecidableEq

/-- Gated variant effect (`useEffect` guarded by `realtimeEnabled`).  Its
body evaluates the expression `fetchData (setRefreshing, setDataState,
setLastRefreshed)` — which only *creates* the async closure and discards
it, never invoking it — and installs an interval whose callback evaluates
the same closure-creating expression.  So neither `start` nor `tick`
performs a fetch; `stop` runs the cleanup `clearInterval`. -/
def gatedStep (s : PollState) : PollEvent → PollState
  | .start => { s with intervalActive := true }
  | .tick => s
  | .stop => { s with intervalActive := false }

/-- Ungated variant effect: `const fetch = fetchData (…); fetch ();
setInterval (() => { fetch () }, 5000)`.  `start` performs one immediate
fetch and installs the interval; each `tick` performs one fetch while
the interval is installed and nothing once `clearInterval` has run. -/
def ungatedStep (s : PollState) : PollEvent → PollState
  | .start => { intervalActive := true, fetchCount := s.fetchCount + 1 }
  | .tick =>
    if s.intervalActive then { s with fetchCount := s.fetchCount + 1 } else s
  | .stop => { s with intervalActive := false }

/-- Run the gated effect from the quiescent state over an event trace. -/
def runGated (events : List PollEvent) : PollState :=
  events.foldl gatedStep { intervalActive := false, fetchCount := 0 }

/-- Run the ungated effect from the quiescent state over an event
trace. -/
def runUngated (events : List PollEvent) : PollState :=
  events.foldl ungatedStep { intervalActive := false, fetchCount := 0 }

/-! ## Gated component state and event handlers -/

/-- The `useState` hooks of the gated `TimeSeriesClient`, plus
`intervalActive`, the effect's interval handle (`setInterval` installed
and not yet cleared). -/
structure GatedState where
  threshold : Int
  dataState : List TimeSeriesData
  realtimeEnabled : Bool
  showPasswordModal : Bool
  password : String
  refreshing : Bool
  lastRefreshed : Option Nat
  intervalActive : Bool
  deriving Repr, DecidableEq

/-- Value of one base64 alphabet character. -/
def base64CharVal (c : Char) : Nat :=
  if 'A' ≤ c ∧ c ≤ 'Z' then c.toNat - 65
  else if 'a' ≤ c ∧ c ≤ 'z' then c.toNat - 97 + 26
  else if '0' ≤ c ∧ c ≤ '9' then c.toNat - 48 + 52
  else if c = '+' then 62
  else if c = '/' then 63
  else 0

/-- Split a list into groups of four (the trailing group may be
shorter). -/
def chunks4 : List Nat → List (List Nat)
  | a :: b :: c :: d :: rest => [a, b, c, d] :: chunks4 rest
  | [] => []
  | l => [l]

/-- Decode one base64 group of 6-bit values into bytes. -/
def b64Group : List Nat → List Nat
  | [a, b, c, d] => [a * 4 + b / 16, b % 16 * 16 + c / 4, c % 4 * 64 + d]
  | [a, b, c] => [a * 4 + b / 16, b % 16 * 16 + c / 4]
  | [a, b] => [a * 4 + b / 16]
  | _ => []

/-- The browser `atob`: base64-decode to a (byte) string. -/
def atob (s : String) : String :=
  let vals := (s.toList.filter (fun c => c ≠ '=')).map base64CharVal
  String.mk (((chunks4 vals).map b64Group).flatten.map Char.ofNat)

/-- The fixed decoded secret the password is compared against:
`atob ("YmFqZXI=")`. -/
def realtimePassword : String := atob "YmFqZXI="

/-- The Confirm handler of the password modal:
`if (password === atob ("YmFqZXI=")) { setRealtimeEnabled (true);
setShowPasswordModal (false) } else { alert ("Incorrect password") }`.
Returns the new state and whether the error alert was surfaced. -/
def confirmPassword (s : GatedState) : GatedState × Bool :=
  if s.password = realtimePassword then
    ({ s with realtimeEnabled := true, showPasswordModal := false }, false)
  else
    (s, true)

/-- The realtime toggle button: when enabled, `setRealtimeEnabled
(false)` (whereupon the effect cleanup runs `clearInterval`); when
disabled, `setShowPasswordModal (true)`. -/
def toggleRealtime (s : GatedState) : GatedState :=
  if s.realtimeEnabled then
    { s with realtimeEnabled := false, intervalActive := false }
  else
    { s with showPasswordModal := true }

/-- Outcome of one awaited Supabase query. -/
inductive FetchResult where
  | ok (rows : List TimeSeriesData)
  | err
  deriving Repr, DecidableEq

/-- One complete run of the async closure returned by `fetchData`:
`setRefreshing (true)`, await the query, then on error only log, else
`setDataState (data ?? [])` and `setLastRefreshed (new Date ())`, and
finally `setRefreshing (false)`. -/
def fetchRun (res : FetchResult) (now : Nat) (s : GatedState) : GatedState :=
  let s1 := { s with refreshing := true }
  match res with
  | .err => { s1 with refreshing := false }
  | .ok rows =>
    { s1 with dataState := rows, lastRefreshed := some now, refreshing := false }

/-- A sample gated component state used to instantiate theorems. -/
def sampleGated : GatedState :=
  { threshold := 100
    dataState := []
    realtimeEnabled := false
    showPasswordModal := true
    password := "bajer"
    refreshing := false
    lastRefreshed := none
    intervalActive := false }


/-! ## Theorems

### Calendar and ISO-8601 round-trip -/

theorem yearSpan_succ (n : Nat) : ∀ y, yearSpan y (n + 1) = yearSpan y n + daysInYear (y + n) := by
  induction n with
  | zero => intro y; simp [yearSpan]
  | succ n ih =>
    intro y
    show daysInYear y + yearSpan (y + 1) (n + 1) = yearSpan y (n + 1) + daysInYear (y + (n + 1))
    rw [ih (y + 1)]
    have hyn : y + 1 + n = y + (n + 1) := by omega
    rw [hyn]
    show daysInYear y + (yearSpan (y + 1) n + daysInYear (y + (n + 1))) =
      daysInYear y + yearSpan (y + 1) n + daysInYear (y + (n + 1))
    omega

theorem yearSpan_mono (y n k : Nat) : yearSpan y n ≤ yearSpan y (n + k) := by
  induction k with
  | zero => simp
  | succ k ih =>
    have h : n + (k + 1) = (n + k) + 1 := by omega
    rw [h, yearSpan_succ]
    omega

theorem daysInYear_bounds (y : Nat) : 365 ≤ daysInYear y ∧ daysInYear y ≤ 366 := by
  simp only [daysInYear]; split <;> omega

theorem monthLength_bounds (y m : Nat) : 28 ≤ monthLength y m ∧ monthLength y m ≤ 31 := by
  unfold monthLength
  split <;> first
    | (split <;> omega)
    | omega

theorem findYearAux_spec (fuel : Nat) : ∀ y rem, rem < 365 * fuel + 365 →
    y ≤ (findYearAux fuel y rem).1 ∧
    yearSpan y ((findYearAux fuel y rem).1 - y) + (findYearAux fuel y rem).2 = rem ∧
    (findYearAux fuel y rem).2 < daysInYear (findYearAux fuel y rem).1 := by
  induction fuel with
  | zero =>
    intro y rem hrem
    have hb := daysInYear_bounds y
    show y ≤ y ∧ yearSpan y (y - y) + rem = rem ∧ rem < daysInYear y
    exact ⟨Nat.le_refl y, by simp [yearSpan], by omega⟩
  | succ fuel ih =>
    intro y rem hrem
    have hunf : findYearAux (fuel + 1) y rem =
        if daysInYear y ≤ rem then findYearAux fuel (y + 1) (rem - daysInYear y) else (y, rem) := rfl
    rw [hunf]
    have hb := daysInYear_bounds y
    split_ifs with hle
    · obtain ⟨h1, h2, h3⟩ := ih (y + 1) (rem - daysInYear y) (by omega)
      refine ⟨by omega, ?_, h3⟩
      have hs : (findYearAux fuel (y + 1) (rem - daysInYear y)).1 - y =
          ((findYearAux fuel (y + 1) (rem - daysInYear y)).1 - (y + 1)) + 1 := by omega
      rw [hs]
      have hstep : yearSpan y (((findYearAux fuel (y + 1) (rem - daysInYear y)).1 - (y + 1)) + 1) =
          daysInYear y + yearSpan (y + 1) ((findYearAux fuel (y + 1) (rem - daysInYear y)).1 - (y + 1)) := rfl
      rw [hstep]
      omega
    · show y ≤ y ∧ yearSpan y (y - y) + rem = rem ∧ rem < daysInYear y
      exact ⟨Nat.le_refl y, by simp [yearSpan], by omega⟩

theorem findYear_spec (y rem : Nat) :
    y ≤ (findYear y rem).1 ∧
    yearSpan y ((findYear y rem).1 - y) + (findYear y rem).2 = rem ∧
    (findYear y rem).2 < daysInYear (findYear y rem).1 :=
  findYearAux_spec (rem / 365 + 1) y rem (by omega)

theorem findMonthAux_spec (y : Nat) (fuel : Nat) : ∀ m rem, rem < monthSpan y m (fuel + 1) →
    m ≤ (findMonthAux fuel y m rem).1 ∧ (findMonthAux fuel y m rem).1 ≤ m + fuel ∧
    1 ≤ (findMonthAux fuel y m rem).2 ∧
    (findMonthAux fuel y m rem).2 ≤ monthLength y (findMonthAux fuel y m rem).1 ∧
    monthSpan y m ((findMonthAux fuel y m rem).1 - m) + ((findMonthAux fuel y m rem).2 - 1) = rem := by
  induction fuel with
  | zero =>
    intro m rem hrem
    have h1 : monthSpan y m (0 + 1) = monthLength y m + 0 := rfl
    show m ≤ m ∧ m ≤ m + 0 ∧ 1 ≤ rem + 1 ∧ rem + 1 ≤ monthLength y m ∧
      monthSpan y m (m - m) + (rem + 1 - 1) = rem
    have h0 : monthSpan y m (m - m) = 0 := by
      have hmm : m - m = 0 := by omega
      rw [hmm]
      rfl
    refine ⟨Nat.le_refl m, by omega, by omega, by omega, by omega⟩
  | succ fuel ih =>
    intro m rem hrem
    have hunf : findMonthAux (fuel + 1) y m rem =
        if monthLength y m ≤ rem then findMonthAux fuel y (m + 1) (rem - monthLength y m)
        else (m, rem + 1) := rfl
    rw [hunf]
    have hspan : monthSpan y m (fuel + 1 + 1) =
        monthLength y m + monthSpan y (m + 1) (fuel + 1) := rfl
    split_ifs with hle
    · obtain ⟨h1, h2, h3, h4, h5⟩ := ih (m + 1) (rem - monthLength y m) (by omega)
      refine ⟨by omega, by omega, h3, h4, ?_⟩
      have hs : (findMonthAux fuel y (m + 1) (rem - monthLength y m)).1 - m =
          ((findMonthAux fuel y (m + 1) (rem - monthLength y m)).1 - (m + 1)) + 1 := by omega
      rw [hs]
      have hstep : monthSpan y m (((findMonthAux fuel y (m + 1) (rem - monthLength y m)).1 - (m + 1)) + 1) =
          monthLength y m + monthSpan y (m + 1) ((findMonthAux fuel y (m + 1) (rem - monthLength y m)).1 - (m + 1)) := rfl
      rw [hstep]
      omega
    · show m ≤ m ∧ m ≤ m + (fuel + 1) ∧ 1 ≤ rem + 1 ∧ rem + 1 ≤ monthLength y m ∧
        monthSpan y m (m - m) + (rem + 1 - 1) = rem
      have h0 : monthSpan y m (m - m) = 0 := by
        have hmm : m - m = 0 := by omega
        rw [hmm]
        rfl
      refine ⟨Nat.le_refl m, by omega, by omega, by omega, by omega⟩

set_option maxRecDepth 4000 in
theorem monthSpan_1_12 (y : Nat) : monthSpan y 1 12 = daysInYear y := by
  show monthLength y 1 + (monthLength y 2 + (monthLength y 3 + (monthLength y 4 +
    (monthLength y 5 + (monthLength y 6 + (monthLength y 7 + (monthLength y 8 +
    (monthLength y 9 + (monthLength y 10 + (monthLength y 11 + (monthLength y 12 + 0))))))))))) =
    daysInYear y
  simp only [monthLength, daysInYear]
  cases hL : isLeap y <;> simp [hL]

theorem monthAndDay_spec (y doy : Nat) (h : doy < daysInYear y) :
    ∀ m d, monthAndDay y doy = (m, d) →
      1 ≤ m ∧ m ≤ 12 ∧ 1 ≤ d ∧ d ≤ 31 ∧ daysBeforeMonth y m + (d - 1) = doy := by
  intro m d hmd
  have hspan : doy < monthSpan y 1 12 := by rw [monthSpan_1_12]; omega
  obtain ⟨h1, h2, h3, h4, h5⟩ := findMonthAux_spec y 11 1 doy hspan
  have hmd' : findMonthAux 11 y 1 doy = (m, d) := hmd
  have e1 : (findMonthAux 11 y 1 doy).1 = m := congrArg Prod.fst hmd'
  have e2 : (findMonthAux 11 y 1 doy).2 = d := congrArg Prod.snd hmd'
  rw [e1] at h1 h2 h4 h5
  rw [e2] at h3 h4 h5
  have hml := monthLength_bounds y m
  refine ⟨h1, by omega, h3, by omega, ?_⟩
  show monthSpan y 1 (m - 1) + (d - 1) = doy
  exact h5

theorem yearSpan_closed (n : Nat) : yearSpan 1970 n =
    365 * n + (n + 1) / 4 - (n + 69) / 100 + (n + 369) / 400 := by
  induction n with
  | zero => rfl
  | succ n ih =>
    have hstep : yearSpan 1970 (n + 1) = yearSpan 1970 n + daysInYear (1970 + n) :=
      yearSpan_succ n 1970
    rw [hstep, ih]
    clear hstep ih
    simp only [daysInYear]
    split_ifs with hL
    · simp only [isLeap, Bool.and_eq_true, Bool.or_eq_true, decide_eq_true_eq,
        ne_eq, Bool.not_eq_true, decide_eq_false_iff_not] at hL
      obtain ⟨h4, h100⟩ := hL
      have e4 : (n + 1 + 1) / 4 = (n + 1) / 4 + 1 := by omega
      rcases h100 with h100 | h400
      · have e100 : (n + 1 + 69) / 100 = (n + 69) / 100 := by omega
        have e400 : (n + 1 + 369) / 400 = (n + 369) / 400 := by omega
        omega
      · have e100 : (n + 1 + 69) / 100 = (n + 69) / 100 + 1 := by omega
        have e400 : (n + 1 + 369) / 400 = (n + 369) / 400 + 1 := by omega
        omega
    · simp only [isLeap, Bool.and_eq_true, Bool.or_eq_true, decide_eq_true_eq,
        ne_eq, Bool.not_eq_true, decide_eq_false_iff_not] at hL
      by_cases h4 : (1970 + n) % 4 = 0
      · have hrest : (1970 + n) % 100 = 0 ∧ (1970 + n) % 400 ≠ 0 := by tauto
        obtain ⟨h100, h400⟩ := hrest
        have e4 : (n + 1 + 1) / 4 = (n + 1) / 4 + 1 := by omega
        have e100 : (n + 1 + 69) / 100 = (n + 69) / 100 + 1 := by omega
        have e400 : (n + 1 + 369) / 400 = (n + 369) / 400 := by omega
        omega
      · have e4 : (n + 1 + 1) / 4 = (n + 1) / 4 := by omega
        have e100 : (n + 1 + 69) / 100 = (n + 69) / 100 := by omega
        have e400 : (n + 1 + 369) / 400 = (n + 369) / 400 := by omega
        omega

theorem yearSpan_1970_8030 : yearSpan 1970 8030 = 2932897 := by
  rw [yearSpan_closed]

theorem civilFromDays_spec (z : Nat) (hz : z ≤ 2932896) :
    ∀ y m d, civilFromDays z = (y, m, d) →
      daysFromCivil y m d = z ∧ 1970 ≤ y ∧ y ≤ 9999 ∧
      1 ≤ m ∧ m ≤ 12 ∧ 1 ≤ d ∧ d ≤ 31 := by
  intro y m d hc
  have hc' : ((findYear 1970 z).1,
      ((monthAndDay (findYear 1970 z).1 (findYear 1970 z).2).1,
       (monthAndDay (findYear 1970 z).1 (findYear 1970 z).2).2)) = (y, m, d) := hc
  injection hc' with hy hrest
  injection hrest with hm hd
  obtain ⟨hA, hB, hC⟩ := findYear_spec 1970 z
  rw [hy] at hA hB hC
  obtain ⟨hm1, hm2, hd1, hd2, hmd⟩ :=
    monthAndDay_spec y (findYear 1970 z).2 hC m d
      (by rw [← hy]; exact Prod.ext hm hd)
  have hcap : y ≤ 9999 := by
    by_contra hgt
    push_neg at hgt
    have hmono := yearSpan_mono 1970 8030 (y - 1970 - 8030)
    have hidx : 8030 + (y - 1970 - 8030) = y - 1970 := by omega
    rw [hidx, yearSpan_1970_8030] at hmono
    omega
  refine ⟨?_, hA, hcap, hm1, hm2, hd1, hd2⟩
  show yearSpan 1970 (y - 1970) + daysBeforeMonth y m + (d - 1) = z
  omega

theorem toNat_digitChar (n : Nat) : (digitChar n).toNat = 48 + n % 10 := by
  simp only [digitChar]
  have h : n % 10 < 10 := Nat.mod_lt _ (by omega)
  revert h
  generalize n % 10 = k
  intro h
  interval_cases k <;> decide

theorem digitVal_digitChar (n : Nat) : digitVal (digitChar n) = n % 10 := by
  simp only [digitVal, toNat_digitChar]
  omega

theorem isDigitChar_digitChar (n : Nat) : isDigitChar (digitChar n) = true := by
  simp only [isDigitChar, toNat_digitChar, decide_eq_true_eq, Bool.and_eq_true]
  omega

theorem toList_mk (l : List Char) : (String.mk l).toList = l := rfl

theorem padNum_two (n : Nat) : padNum 2 n = [digitChar (n / 10), digitChar n] := rfl

theorem padNum_three (n : Nat) :
    padNum 3 n = [digitChar (n / 10 / 10), digitChar (n / 10), digitChar n] := rfl

theorem padNum_four (n : Nat) :
    padNum 4 n = [digitChar (n / 10 / 10 / 10), digitChar (n / 10 / 10), digitChar (n / 10),
      digitChar n] := rfl

theorem parseISO_toISOString (ms : Nat) (h : ms < 253402300800000) :
    parseISO (toISOString ms) = some ms := by
  rcases hC : civilFromDays (ms / 86400000) with ⟨y, mo, d⟩
  obtain ⟨hback, hy1, hy2, hm1, hm2, hd1, hd2⟩ :=
    civilFromDays_spec (ms / 86400000) (by omega) y mo d hC
  have hiso : toISOString ms = String.mk (
      padNum 4 y ++ ['-'] ++ padNum 2 mo ++ ['-'] ++ padNum 2 d ++ ['T'] ++
      padNum 2 (ms % 86400000 / 3600000) ++ [':'] ++
      padNum 2 (ms % 86400000 % 3600000 / 60000) ++ [':'] ++
      padNum 2 (ms % 86400000 % 60000 / 1000) ++ ['.'] ++
      padNum 3 (ms % 86400000 % 1000) ++ ['Z']) := by
    simp only [toISOString]
    rw [hC]
  rw [hiso]
  simp only [padNum_four, padNum_three, padNum_two, List.cons_append, List.nil_append]
  simp only [parseISO, toList_mk]
  simp only [digitVal_digitChar, isDigitChar_digitChar, Bool.and_self, if_true]
  split_ifs with hcond
  · simp only [Option.some.injEq]
    have eY : 1000 * (y / 10 / 10 / 10 % 10) + 100 * (y / 10 / 10 % 10) +
        10 * (y / 10 % 10) + y % 10 = y := by omega
    have eM : 10 * (mo / 10 % 10) + mo % 10 = mo := by omega
    have eD : 10 * (d / 10 % 10) + d % 10 = d := by omega
    rw [eY, eM, eD, hback]
    omega
  · exfalso
    apply hcond
    refine ⟨by omega, by omega, by omega, by omega, by omega, by omega, by omega⟩


/-! ### View Model Builder lemmas -/

theorem insertDesc_perm (x : ChartData) (l : List ChartData) :
    (insertDesc x l).Perm (x :: l) := by
  induction l with
  | nil => simp [insertDesc]
  | cons y ys ih =>
    simp only [insertDesc]
    split_ifs
    · exact List.Perm.refl _
    · exact (List.Perm.cons y ih).trans (List.Perm.swap x y ys)

theorem tableData_perm (l : List ChartData) : (tableData l).Perm l := by
  induction l with
  | nil => simp [tableData]
  | cons x xs ih =>
    exact (insertDesc_perm x (tableData xs)).trans (List.Perm.cons x ih)

theorem insertDesc_pairwise (x : ChartData) (l : List ChartData)
    (hl : l.Pairwise (fun a b => b.timestamp ≤ a.timestamp)) :
    (insertDesc x l).Pairwise (fun a b => b.timestamp ≤ a.timestamp) := by
  induction l with
  | nil => simp [insertDesc]
  | cons y ys ih =>
    simp only [insertDesc]
    rw [List.pairwise_cons] at hl
    split_ifs with hle
    · refine List.Pairwise.cons ?_ (List.pairwise_cons.mpr hl)
      intro z hz
      rcases List.mem_cons.mp hz with rfl | hz
      · exact hle
      · have := hl.1 z hz
        omega
    · refine List.Pairwise.cons ?_ (ih hl.2)
      intro z hz
      have hmem := (insertDesc_perm x ys).mem_iff.mp hz
      rcases List.mem_cons.mp hmem with rfl | hzys
      · omega
      · exact hl.1 z hzys

theorem tableData_pairwise (l : List ChartData) :
    (tableData l).Pairwise (fun a b => b.timestamp ≤ a.timestamp) := by
  induction l with
  | nil => simp [tableData]
  | cons x xs ih => exact insertDesc_pairwise x (tableData xs) ih

theorem filter_insertDesc (x : ChartData) (l : List ChartData) (t : Nat) :
    (insertDesc x l).filter (fun p => p.timestamp == t) =
      if x.timestamp = t then x :: l.filter (fun p => p.timestamp == t)
      else l.filter (fun p => p.timestamp == t) := by
  induction l with
  | nil =>
    by_cases hx : x.timestamp = t <;> simp [insertDesc, List.filter_cons, beq_iff_eq, hx]
  | cons y ys ih =>
    simp only [insertDesc]
    by_cases hle : y.timestamp ≤ x.timestamp
    · rw [if_pos hle]
      by_cases hx : x.timestamp = t <;>
        simp [List.filter_cons, beq_iff_eq, hx]
    · rw [if_neg hle]
      by_cases hx : x.timestamp = t
      · by_cases hy : y.timestamp = t
        · exfalso; omega
        · simp [List.filter_cons, beq_iff_eq, hx, hy, ih]
      · by_cases hy : y.timestamp = t <;>
          simp [List.filter_cons, beq_iff_eq, hx, hy, ih]

theorem filter_tableData (l : List ChartData) (t : Nat) :
    (tableData l).filter (fun p => p.timestamp == t) =
      l.filter (fun p => p.timestamp == t) := by
  induction l with
  | nil => rfl
  | cons x xs ih =>
    show (insertDesc x (tableData xs)).filter (fun p => p.timestamp == t) = _
    rw [filter_insertDesc]
    by_cases hx : x.timestamp = t <;> simp [List.filter_cons, hx, ih]

theorem lt_maximum_iff_exists (l : List Int) (t : Int) :
    ((t : WithBot Int) < l.maximum) ↔ ∃ v ∈ l, t < v := by
  induction l with
  | nil => simp [List.maximum_nil]
  | cons a l ih =>
    rw [List.maximum_cons]
    constructor
    · intro h
      rcases lt_max_iff.mp h with h | h
      · exact ⟨a, List.mem_cons_self a l, WithBot.coe_lt_coe.mp h⟩
      · obtain ⟨v, hv, hvt⟩ := ih.mp h
        exact ⟨v, List.mem_cons_of_mem a hv, hvt⟩
    · rintro ⟨v, hv, hvt⟩
      rcases List.mem_cons.mp hv with rfl | hv
      · exact lt_max_iff.mpr (Or.inl (WithBot.coe_lt_coe.mpr hvt))
      · exact lt_max_iff.mpr (Or.inr (ih.mpr ⟨v, hv, hvt⟩))

/-! ### CSV lemmas -/

theorem map_quoted_rows (points : List ChartData) :
    (points.map (fun row => [toString row.value, toISOString row.timestamp])).map
      (fun r => joinWith "," (r.map (fun cell => "\"" ++ cell ++ "\""))) =
      points.map csvDataRow := by
  induction points with
  | nil => rfl
  | cons p pts ih =>
    simp only [List.map_cons, List.map_nil, ih]
    rfl

/-! ### Polling Controller lemmas -/

theorem ungated_ticks_active (k : Nat) : ∀ s : PollState, s.intervalActive = true →
    List.foldl ungatedStep s (List.replicate k PollEvent.tick) =
      { intervalActive := true, fetchCount := s.fetchCount + k } := by
  induction k with
  | zero =>
    intro s h
    simp only [List.replicate, List.foldl_nil]
    cases s
    simp_all
  | succ k ih =>
    intro s h
    rw [List.replicate_succ, List.foldl_cons]
    have hstep : ungatedStep s PollEvent.tick =
        { intervalActive := s.intervalActive, fetchCount := s.fetchCount + 1 } := by
      simp [ungatedStep, h]
    rw [hstep, ih _ (by simp [h])]
    simp [h]
    omega

theorem ungated_ticks_inactive (m : Nat) : ∀ s : PollState, s.intervalActive = false →
    List.foldl ungatedStep s (List.replicate m PollEvent.tick) = s := by
  induction m with
  | zero => intro s _; rfl
  | succ m ih =>
    intro s h
    rw [List.replicate_succ, List.foldl_cons]
    have hstep : ungatedStep s PollEvent.tick = s := by
      simp [ungatedStep, h]
    rw [hstep]
    exact ih s h


/-! ### Claim theorems -/

/-- C1: the claim says both variants fetch once immediately on entering
Polling and once per 5-second tick, and never after disable/unmount.
The ungated variant does (second conjunct): one fetch at start, one per
tick while polling, none of the `m` post-stop ticks fetches.  The gated
variant does not (first conjunct): even after enabling and a full tick,
zero invocations of the fetch closure have happened, because its effect
evaluates `fetchData (…)` without calling the returned async function. -/
theorem c1_polling_fetch_invocations :
    (runGated [PollEvent.start, PollEvent.tick]).fetchCount = 0 ∧
    ∀ k m : Nat,
      (runUngated (PollEvent.start :: (List.replicate k PollEvent.tick ++
        (PollEvent.stop :: List.replicate m PollEvent.tick)))).fetchCount = 1 + k := by
  constructor
  · rfl
  · intro k m
    show (List.foldl ungatedStep { intervalActive := false, fetchCount := 0 }
      (PollEvent.start :: (List.replicate k PollEvent.tick ++
        (PollEvent.stop :: List.replicate m PollEvent.tick)))).fetchCount = 1 + k
    rw [List.foldl_cons]
    have h0 : ungatedStep { intervalActive := false, fetchCount := 0 } PollEvent.start =
        { intervalActive := true, fetchCount := 1 } := rfl
    rw [h0, List.foldl_append, ungated_ticks_active k _ rfl, List.foldl_cons]
    have h1 : ungatedStep { intervalActive := true, fetchCount := 1 + k } PollEvent.stop =
        { intervalActive := false, fetchCount := 1 + k } := rfl
    rw [h1, ungated_ticks_inactive m _ rfl]

/-- C2: the claim says the capped query returns the newest 100 readings
oldest-first when more than 100 rows exist.  On a 101-row table the code
(`order created_at ascending` then `limit 100`) returns the oldest 100:
the first returned row is the oldest row `r0`, whereas the newest 100
presented oldest-first would start with `r1`. -/
theorem c2_capped_query_returns_oldest :
    demoTable.length = 101 ∧
    (fetchQueryCapped demoTable).length = 100 ∧
    (fetchQueryCapped demoTable).head? =
      some { id := "r0", created_at := 0, people_count := 0 } ∧
    ((orderByCreatedAtAsc demoTable).drop (demoTable.length - 100)).head? =
      some { id := "r1", created_at := 1000, people_count := 0 } := by
  decide

/-- C3: `isThresholdExceeded points threshold` is true iff some point's
value strictly exceeds the threshold, equivalently iff the maximum of
the values strictly exceeds it, and it is false on the empty sequence
for every threshold. -/
theorem c3_threshold_exceeded_iff (points : List ChartData) (threshold : Int) :
    (isThresholdExceeded points threshold = true ↔ ∃ p ∈ points, threshold < p.value) ∧
    (isThresholdExceeded points threshold = true ↔
      (threshold : WithBot Int) < (points.map (fun p => p.value)).maximum) ∧
    isThresholdExceeded [] threshold = false := by
  refine ⟨?_, ?_, rfl⟩
  · simp [isThresholdExceeded, List.any_eq_true, decide_eq_true_eq]
  · rw [lt_maximum_iff_exists]
    simp [isThresholdExceeded, List.any_eq_true, decide_eq_true_eq]

/-- C4: the table sequence is a permutation of the chart-ordered
sequence, sorted descending by timestamp, and the sort is stable: for
every timestamp the points carrying it appear in the same order as in
the input. -/
theorem c4_table_sorted_stable (points : List ChartData) :
    (tableData points).Perm points ∧
    (tableData points).Pairwise (fun a b => b.timestamp ≤ a.timestamp) ∧
    ∀ t : Nat, (tableData points).filter (fun p => p.timestamp == t) =
      points.filter (fun p => p.timestamp == t) :=
  ⟨tableData_perm points, tableData_pairwise points, fun t => filter_tableData points t⟩

/-- C5: `latestValue` returns the no-data marker on the empty sequence
and the value of the last point of the chart-ordered sequence
otherwise. -/
theorem c5_latest_value (points : List ChartData) (p : ChartData) :
    latestValue [] = LatestValue.noData ∧
    latestValue (points ++ [p]) = LatestValue.val p.value := by
  refine ⟨rfl, ?_⟩
  simp [latestValue, List.getLast?_concat]

/-- C6: the CSV export document is the header row followed by exactly
one double-quoted data row per point in input order, rows joined by
newline — `csvRows` spells out that row sequence and the export equals
its newline-join, with `points.length + 1` rows headed by the header. -/
theorem c6_csv_document (points : List ChartData) :
    exportDataToCsv points = joinWith "\n" (csvRows points) ∧
    (csvRows points).length = points.length + 1 ∧
    (csvRows points).head? = some csvHeaderRow := by
  refine ⟨?_, by simp [csvRows], rfl⟩
  simp only [exportDataToCsv, List.map_cons, map_quoted_rows, csvRows]
  rfl

/-- C7: the second CSV field of a data row is the point's timestamp in
ISO-8601, and parsing that string back yields exactly the original
timestamp instant (for any instant up to the year 9999, the range of
the fixed-width `toISOString` form). -/
theorem c7_iso_roundtrip (p : ChartData) (hp : p.timestamp < 253402300800000) :
    csvDataRow p = quoteCell (toString p.value) ++ "," ++ quoteCell (toISOString p.timestamp) ∧
    parseISO (toISOString p.timestamp) = some p.timestamp :=
  ⟨rfl, parseISO_toISOString p.timestamp hp⟩

/-- C7 witness: the round-trip at the concrete display point with
timestamp 0 (1970-01-01T00:00:00.000Z). -/
theorem c7_iso_roundtrip_witness :
    ({ id := "r0", time := "00:00:00", value := 3, timestamp := 0 } : ChartData).timestamp <
      253402300800000 ∧
    parseISO (toISOString
      ({ id := "r0", time := "00:00:00", value := 3, timestamp := 0 } : ChartData).timestamp) =
      some 0 :=
  ⟨by decide, (c7_iso_roundtrip { id := "r0", time := "00:00:00", value := 3, timestamp := 0 }
    (by decide)).2⟩

/-- C8: a failed fetch leaves the readings untouched, clears the
refreshing flag, does not update `lastRefreshed` (nor any other state
field), and no event of the polling controller triggers more than one
fetch, so no retry happens before the next scheduled tick. -/
theorem c8_fetch_failure_frame (now : Nat) (s : GatedState) :
    (fetchRun FetchResult.err now s).dataState = s.dataState ∧
    (fetchRun FetchResult.err now s).refreshing = false ∧
    (fetchRun FetchResult.err now s).lastRefreshed = s.lastRefreshed ∧
    (fetchRun FetchResult.err now s).threshold = s.threshold ∧
    (fetchRun FetchResult.err now s).realtimeEnabled = s.realtimeEnabled ∧
    ∀ t : PollState, (ungatedStep t PollEvent.tick).fetchCount ≤ t.fetchCount + 1 := by
  refine ⟨rfl, rfl, rfl, rfl, rfl, ?_⟩
  intro t
  by_cases ha : t.intervalActive = true <;> simp [ungatedStep, ha]

/-- C9: submitting the decoded secret enables realtime (Idle → Polling)
without surfacing an error; any other password surfaces the error alert
and leaves the whole state — in particular the polling flag and the
readings — unchanged. -/
theorem c9_access_gate (s : GatedState) :
    (s.password = realtimePassword →
      (confirmPassword s).1.realtimeEnabled = true ∧ (confirmPassword s).2 = false) ∧
    (s.password ≠ realtimePassword →
      (confirmPassword s).1 = s ∧ (confirmPassword s).2 = true) := by
  constructor <;> intro h <;> simp [confirmPassword, h]

/-- C9 witness: the gate at the correct password `"bajer"` and at the
wrong password `"nope"`. -/
theorem c9_access_gate_witness :
    ((confirmPassword sampleGated).1.realtimeEnabled = true ∧
      (confirmPassword sampleGated).2 = false) ∧
    ((confirmPassword { sampleGated with password := "nope" }).1 =
        { sampleGated with password := "nope" } ∧
      (confirmPassword { sampleGated with password := "nope" }).2 = true) :=
  ⟨(c9_access_gate sampleGated).1 (by decide),
   (c9_access_gate { sampleGated with password := "nope" }).2 (by decide)⟩

/-- C10: disabling realtime changes only the polling-enabled flag (and
stops the timer): threshold, readings, lastRefreshed, refreshing,
password and modal state are all left unchanged. -/
theorem c10_disable_frame (s : GatedState) (h : s.realtimeEnabled = true) :
    (toggleRealtime s).threshold = s.threshold ∧
    (toggleRealtime s).dataState = s.dataState ∧
    (toggleRealtime s).lastRefreshed = s.lastRefreshed ∧
    (toggleRealtime s).refreshing = s.refreshing ∧
    (toggleRealtime s).password = s.password ∧
    (toggleRealtime s).showPasswordModal = s.showPasswordModal ∧
    (toggleRealtime s).realtimeEnabled = false ∧
    (toggleRealtime s).intervalActive = false := by
  simp [toggleRealtime, h]

/-- C10 witness: disabling from a concrete enabled state. -/
theorem c10_disable_frame_witness :
    ({ sampleGated with realtimeEnabled := true } : GatedState).realtimeEnabled = true ∧
    (toggleRealtime { sampleGated with realtimeEnabled := true }).dataState =
      ({ sampleGated with realtimeEnabled := true } : GatedState).dataState ∧
    (toggleRealtime { sampleGated with realtimeEnabled := true }).realtimeEnabled = false :=
  ⟨rfl, (c10_disable_frame { sampleGated with realtimeEnabled := true } rfl).2.1,
    (c10_disable_frame { sampleGated with realtimeEnabled := true } rfl).2.2.2.2.2.2.1⟩

end CrowdSense
